import Mathlib

/-!
Shallow embedding of the `libapt` Rust library (Debian APT repository client),
for checking the natural-language specification against the code.

Each definition mirrors a function of the Rust sources under `src/`.
Rust strings are modelled as Lean `String` values, with character-level
operations performed on the underlying `List Char` (the sources only ever
manipulate ASCII data in the code paths covered here, so the ASCII-only
`Char.toLower` and `Char.isWhitespace` faithfully model Rust's
`to_lowercase`/`trim` on every input considered).

A Rust `panic!` (in particular a failed `assert!`) is modelled by `Option`:
a function that can panic returns `none` exactly when the Rust code panics.
Fallible Rust functions returning `Result<T, Error>` are modelled with
`Except RustError T`.
-/

namespace Libapt

/-- Rust `str.to_lowercase()` (ASCII fragment; Rust lowercases Unicode, but all
    inputs in this development are ASCII). -/
def lowerChars (l : List Char) : List Char := l.map Char.toLower

/-- Rust `str.trim()` on a character list: drop whitespace from both ends. -/
def trimChars (l : List Char) : List Char :=
  ((l.dropWhile Char.isWhitespace).reverse.dropWhile Char.isWhitespace).reverse

/-- Rust `str.to_lowercase()` on strings. -/
def lowerStr (s : String) : String := String.mk (lowerChars s.data)

/-- Rust `str.trim()` on strings. -/
def trimStr (s : String) : String := String.mk (trimChars s.data)

/-- Rust `"...".parse::<uN>()` for an unsigned integer of `w` bits:
    an optional leading `+`, then a non-empty run of ASCII digits whose
    value fits in `w` bits. Returns `none` on any other input
    (including overflow). -/
def parseUInt (w : Nat) (l : List Char) : Option Nat :=
  let l := match l with
    | '+' :: rest => rest
    | other => other
  if l ≠ [] ∧ l.all Char.isDigit then
    let v := l.foldl (fun n c => 10 * n + (c.toNat - 48)) 0
    if v < 2 ^ w then some v else none
  else
    none

/-- Error classification of `src/error.rs` (`ErrorType`), extended with the
    variant names referenced from the other source files. -/
inductive ErrorType where
  | Download
  | InReleaseFormat
  | InReleaseStandard
  | UnknownArchitecture
  | Verification
  | VerificationError
  | DistroFormat
  | UnknownPriority
  | PackageFormat
  | SourceFormat
  | UnknownVersionRelation
  | InvalidArchitecture
  | InvalidReference
  | InvalidDistro
  | InvalidPackageMeta
  | ApiUsage
  | Version
deriving DecidableEq

/-- Rust `src/error.rs`: `Error { message, error_type }`. -/
structure RustError where
  message : Option String
  error_type : ErrorType
deriving DecidableEq

/-- Rust `Error::new(message, error_type)`. -/
def RustError.new (message : String) (error_type : ErrorType) : RustError :=
  ⟨some message, error_type⟩

/-! ## `src/version.rs` -/

/-- Rust `split_parts`: split a version/revision string into maximal runs of
    digits and non-digits (`src/version.rs`). -/
def splitPartsGo (digit : Bool) (part : List Char) : List Char → List (List Char)
  | [] => [part.reverse]
  | c :: cs =>
    if c.isDigit = digit then
      splitPartsGo digit (c :: part) cs
    else
      part.reverse :: splitPartsGo (!digit) [c] cs

/-- Rust `split_parts(version)`. The empty string yields no parts. -/
def split_parts (version : List Char) : List (List Char) :=
  match version with
  | [] => []
  | c :: _ => splitPartsGo c.isDigit [] version

/-- The character loop inside `compare_version_str` (`zip(s, o)` over the
    possibly-`~`-padded characters): `none` means the loop finished without
    deciding (all zipped characters equal). -/
def cmpCharsLoop : List (Char × Char) → Option Ordering
  | [] => none
  | (sc, oc) :: rest =>
    if sc = oc then cmpCharsLoop rest
    else if sc = '~' then some .lt
    else if oc = '~' then some .gt
    else if sc < oc then some .lt
    else if oc < sc then some .gt
    else cmpCharsLoop rest

/-- One part-pair comparison plus continuation over the remaining pairs,
    mirroring the `for (s, o) in zip(self_parts, other_parts)` loop of
    `compare_version_str`. `none` models reaching the
    `assert!(false, "This should not happen ...")` after the loop. -/
def cmpPartsLoop : List (List Char × List Char) → Option Ordering
  | [] => none
  | (s, o) :: rest =>
    if s = o then cmpPartsLoop rest
    else if s = [] then some .lt
    else if o = [] then some .gt
    else
      match parseUInt 32 s, parseUInt 32 o with
      | some _, none => some .gt
      | none, some _ => some .lt
      | some sn, some sm =>
        if sn < sm then some .lt
        else if sm < sn then some .gt
        else cmpPartsLoop rest
      | none, none =>
        let s' := if s.length < o.length then s ++ ['~'] else s
        let o' := if o.length < s.length then o ++ ['~'] else o
        match cmpCharsLoop (s'.zip o') with
        | some r => some r
        | none => cmpPartsLoop rest

/-- Rust `Version::compare_version_str`. `none` models the trailing
    `assert!(false)` panic. -/
def compare_version_str (self_version other_version : List Char) : Option Ordering :=
  if self_version = other_version then some .eq
  else
    let self_parts := split_parts self_version
    let other_parts := split_parts other_version
    let pair :=
      if self_parts.length < other_parts.length then (self_parts ++ [[]], other_parts)
      else if other_parts.length < self_parts.length then (self_parts, other_parts ++ [[]])
      else (self_parts, other_parts)
    cmpPartsLoop (pair.1.zip pair.2)

/-- Rust `Version` (`src/version.rs`): epoch is a `u8` in Rust, modelled as `Nat`
    (its parser only accepts values below 256). -/
structure Version where
  epoch : Option Nat
  version : String
  revision : Option String
deriving DecidableEq

/-- Rust `Version::compare_epoch`. `none` models the `assert!(false)` that is
    reached when the two `Option` epochs differ but unpack to the same
    number (e.g. `None` versus `Some(0)`). -/
def Version.compare_epoch (a b : Version) : Option Ordering :=
  if a.epoch = b.epoch then some .eq
  else
    let x := a.epoch.getD 0
    let y := b.epoch.getD 0
    if y < x then some .gt
    else if x < y then some .lt
    else none

/-- Rust `Version::compare_version`. -/
def Version.compare_version (a b : Version) : Option Ordering :=
  if a.version = b.version then some .eq
  else compare_version_str a.version.data b.version.data

/-- Rust `Version::compare_revision` (missing revision treated as `""`). -/
def Version.compare_revision (a b : Version) : Option Ordering :=
  if a.revision = b.revision then some .eq
  else compare_version_str (a.revision.getD "").data (b.revision.getD "").data

/-- Rust `Ord for Version` (`cmp`). `none` models a panic in any of the three
    component comparisons. -/
def Version.cmp (a b : Version) : Option Ordering :=
  if a = b then some .eq
  else
    match a.compare_epoch b with
    | none => none
    | some .gt => some .gt
    | some .lt => some .lt
    | some .eq =>
      match a.compare_version b with
      | none => none
      | some .gt => some .gt
      | some .lt => some .lt
      | some .eq =>
        match a.compare_revision b with
        | none => none
        | some r => some r

/-- Split a character list at the first occurrence of `c`
    (Rust `str::find` + slicing). -/
def splitAtFirst (c : Char) : List Char → Option (List Char × List Char)
  | [] => none
  | x :: xs =>
    if x = c then some ([], xs)
    else (splitAtFirst c xs).map (fun p => (x :: p.1, p.2))

/-- Split a character list at the last occurrence of `c`
    (Rust `str::rfind` + slicing). -/
def splitAtLast (c : Char) (l : List Char) : Option (List Char × List Char) :=
  (splitAtFirst c l.reverse).map (fun p => (p.2.reverse, p.1.reverse))

/-- Rust `Version::split`: `[epoch:]upstream[-revision]`; the epoch must parse as
    `u8`, the revision is everything after the last `-`. -/
def Version.split (version : List Char) : Except RustError (Option Nat × List Char × Option (List Char)) :=
  match splitAtFirst ':' version with
  | some (epochChars, rest) =>
    match parseUInt 8 epochChars with
    | some epoch =>
      match splitAtLast '-' rest with
      | some (ver, rev) => .ok (some epoch, ver, some rev)
      | none => .ok (some epoch, rest, none)
    | none => .error (RustError.new ("Parse epoch error!") .VerificationError)
  | none =>
    match splitAtLast '-' version with
    | some (ver, rev) => .ok (none, ver, some rev)
    | none => .ok (none, version, none)

/-- Rust `Version::from_str`. -/
def Version.fromStr (version : String) : Except RustError Version :=
  match Version.split version.data with
  | .ok (epoch, ver, rev) => .ok ⟨epoch, String.mk ver, rev.map String.mk⟩
  | .error e => .error e

/-! ## `src/types/architecture.rs` -/

/-- Rust `Architecture` (`src/types/architecture.rs`): fixed set plus the
    `Other(String)` catch-all. -/
inductive Architecture where
  | Amd64
  | Arm64
  | Armhf
  | I386
  | Ppc64el
  | Riscv64
  | S390x
  | All
  | Source
  | Any
  | X32
  | Other (s : String)
deriving DecidableEq

/-- The normalization prefix of `Architecture::from_str`: lowercase, strip
    a leading `linux-`, trim. -/
def archNormalize (arch : String) : String :=
  if (lowerStr arch).data.take 6 = ("linux-").data then
    trimStr (String.mk ((lowerStr arch).data.drop 6))
  else
    trimStr (lowerStr arch)

/-- Rust `Architecture::from_str`: normalize, then classify; unknown values
    become `Other` — this function never errors. -/
def Architecture.fromStr (arch : String) : Except RustError Architecture :=
  if archNormalize arch = "amd64" then .ok .Amd64
  else if archNormalize arch = "arm64" then .ok .Arm64
  else if archNormalize arch = "armhf" then .ok .Armhf
  else if archNormalize arch = "i386" then .ok .I386
  else if archNormalize arch = "ppc64el" then .ok .Ppc64el
  else if archNormalize arch = "riscv64" then .ok .Riscv64
  else if archNormalize arch = "s390x" then .ok .S390x
  else if archNormalize arch = "all" then .ok .All
  else if archNormalize arch = "source" then .ok .Source
  else if archNormalize arch = "any" then .ok .Any
  else if archNormalize arch = "x32" then .ok .X32
  else .ok (.Other (archNormalize arch))

/-! ## `src/types/priority.rs` -/

/-- Rust `Priority` (`src/types/priority.rs`). -/
inductive Priority where
  | Required
  | Important
  | Standard
  | Optional
  | Extra
deriving DecidableEq

/-- Rust `Priority::from_str`: lowercase, trim, then compare against the literal
    names. NOTE: the source compares against `"mportant"` (sic), not
    `"important"`. -/
def Priority.fromStr (priority : String) : Except RustError Priority :=
  let p := trimStr (lowerStr priority)
  if p = "required" then .ok .Required
  else if p = "mportant" then .ok .Important
  else if p = "standard" then .ok .Standard
  else if p = "optional" then .ok .Optional
  else if p = "extra" then .ok .Extra
  else .error (RustError.new (s!"Priority {p} is not known!") .UnknownPriority)

/-! ## `src/package_version.rs` -/

/-- Rust `VersionRelation` (`src/package_version.rs`). -/
inductive VersionRelation where
  | StrictSmaller
  | Smaller
  | Exact
  | Larger
  | StrictLarger
deriving DecidableEq

/-- Rust `VersionRelation::from_str`. -/
def VersionRelation.fromStr (relation : String) : Except RustError VersionRelation :=
  let r := trimStr (lowerStr relation)
  if r = ">>" then .ok .StrictLarger
  else if r = ">=" then .ok .Larger
  else if r = "=" then .ok .Exact
  else if r = "<=" then .ok .Smaller
  else if r = "<<" then .ok .StrictSmaller
  else .error (RustError.new (s!"Package version relation {r} is not known!") .UnknownVersionRelation)

/-- Rust `VersionRelation::matches(a, b)`. The `<`, `<=`, `>=`, `>` comparisons go
    through `Ord for Version` and therefore can panic (`none`); `=` is the
    derived structural `PartialEq` and is total. -/
def VersionRelation.matches : VersionRelation → Version → Version → Option Bool
  | .StrictSmaller, a, b => (Version.cmp a b).map (fun o => o = .lt)
  | .Smaller, a, b => (Version.cmp a b).map (fun o => o ≠ .gt)
  | .Exact, a, b => some (decide (a = b))
  | .Larger, a, b => (Version.cmp a b).map (fun o => o ≠ .lt)
  | .StrictLarger, a, b => (Version.cmp a b).map (fun o => o = .gt)

/-- Rust `PackageVersion` (`src/package_version.rs`). -/
structure PackageVersion where
  name : String
  architecture : Option Architecture
  version : Option Version
  relation : Option VersionRelation
deriving DecidableEq

/-- Rust `str::find` of a one-character pattern: the index of the first
    occurrence (byte index in Rust; inputs here are ASCII, so character
    index coincides). -/
def rustFind (c : Char) : List Char → Option Nat
  | [] => none
  | x :: xs =>
    if x = c then some 0
    else (rustFind c xs).map (fun i => i + 1)

/-- Rust slice `&s[a..b]`: the characters from index `a` (inclusive) to `b`
    (exclusive); `none` models the slice PANIC when `a > b` or `b` exceeds
    the length. -/
def rustSlice (l : List Char) (a b : Nat) : Option (List Char) :=
  if a ≤ b ∧ b ≤ l.length then some ((l.take b).drop a) else none

/-- The `find(l)`/`find(r)` plus `&desc[start + 1..end]` slicing of
    `single_form_str` (package_version.rs, the `[`/`]` and `(`/`)` blocks).
    Outer `none` models the Rust slice panic (the first `r` precedes the
    first `l`); `some none` means one of the delimiters is absent and the
    block is skipped; `some (some mid)` is the sliced content. -/
def betweenDelims (lc rc : Char) (desc : List Char) : Option (Option (List Char)) :=
  match rustFind lc desc, rustFind rc desc with
  | some start, some stop =>
    match rustSlice desc (start + 1) stop with
    | some mid => some (some mid)
    | none => none
  | _, _ => some none

/-- Rust `split` on a one-char separator (keeps empty pieces). -/
def splitOnChar (c : Char) : List Char → List (List Char)
  | [] => [[]]
  | x :: xs =>
    if x = c then [] :: splitOnChar c xs
    else
      match splitOnChar c xs with
      | [] => [[x]]
      | p :: ps => (x :: p) :: ps

/-- Rust `PackageVersion::single_form_str`. The outer `Option` is the
    panic layer: `none` when one of the two `&desc[start + 1..end]` slices
    panics (the closing delimiter precedes the opening one). -/
def PackageVersion.singleFormStr (desc : String) :
    Option (Except RustError (List PackageVersion)) :=
  let descL := desc.data
  -- Get the package name (and a `name:arch` qualifier).
  let nameDesc : Except RustError (List Char × List Char × List Architecture) :=
    match splitAtFirst ' ' descL with
    | some (name, rest) =>
      match splitAtFirst ':' name with
      | some (name', archChars) =>
        match Architecture.fromStr (String.mk archChars) with
        | .ok arch => .ok (name', rest, [arch])
        | .error e => .error e
      | none => .ok (name, rest, [])
    | none => .ok (trimChars descL, [], [])
  match nameDesc with
  | .error e => some (.error e)
  | .ok (name, rest, archs0) =>
    -- Check for an architecture list in brackets.
    match betweenDelims '[' ']' rest with
    | none => none
    | some bracket =>
      let archListE : Except RustError (List Architecture) :=
        match bracket with
        | some archChars =>
          (splitOnChar ' ' archChars).foldlM
            (fun acc a =>
              match Architecture.fromStr (String.mk a) with
              | .ok arch => .ok (acc ++ [arch])
              | .error e => .error e)
            archs0
        | none => .ok archs0
      match archListE with
      | .error e => some (.error e)
      | .ok architectures =>
        -- Check for a version relation in parentheses.
        match betweenDelims '(' ')' rest with
        | none => none
        | some paren =>
          let vrE : Except RustError (Option Version × Option VersionRelation) :=
            match paren with
            | some vr =>
              match splitAtFirst ' ' vr with
              | some (relChars, verChars) =>
                match VersionRelation.fromStr (String.mk relChars) with
                | .error e => .error e
                | .ok relation =>
                  match Version.fromStr (String.mk verChars) with
                  | .error e => .error e
                  | .ok version => .ok (some version, some relation)
              | none =>
                match Version.fromStr (String.mk vr) with
                | .error e => .error e
                | .ok version => .ok (some version, none)
            | none => .ok (none, none)
          match vrE with
          | .error e => some (.error e)
          | .ok (version, relation) =>
            let nameS := String.mk name
            if architectures = [] then
              some (.ok [⟨nameS, none, version, relation⟩])
            else
              some (.ok (architectures.map (fun a => ⟨nameS, some a, version, relation⟩)))

/-- Rust `PackageVersion::from_str`, alternative by alternative: `collect`
    over `Result` stops at the first error; a slice panic anywhere aborts
    the whole call (outer `none`). -/
def PackageVersion.fromStrGo : List (List Char) → Option (Except RustError (List PackageVersion))
  | [] => some (.ok [])
  | d :: ds =>
    match PackageVersion.singleFormStr (String.mk d) with
    | none => none
    | some (.error e) => some (.error e)
    | some (.ok pvs) =>
      match PackageVersion.fromStrGo ds with
      | none => none
      | some (.error e) => some (.error e)
      | some (.ok rest) => some (.ok (pvs ++ rest))

/-- Rust `PackageVersion::from_str`: split on `|`, trim, parse each
    alternative, concatenate. -/
def PackageVersion.fromStr (desc : String) : Option (Except RustError (List PackageVersion)) :=
  PackageVersion.fromStrGo ((splitOnChar '|' (trimChars desc.data)).map trimChars)

/-- Rust `PackageVersion::matches(package_version)`: without a stored version the
    result is `false`; otherwise the (defaulted-to-`Exact`) relation is
    evaluated, which can panic. -/
def PackageVersion.matches (pv : PackageVersion) (package_version : Version) : Option Bool :=
  match pv.version with
  | some version =>
    let relation := pv.relation.getD .Exact
    relation.matches package_version version
  | none => some false

/-! ## `src/link.rs` -/

/-- Rust `LinkHash` (`src/link.rs`). -/
inductive LinkHash where
  | Md5
  | Sha1
  | Sha256
  | Sha512
deriving DecidableEq

/-- Rust `Link` (`src/link.rs`): the `HashMap<LinkHash, String>` is modelled as an
    association list with insert-overwrites semantics; only `get`/`insert`
    are used by the embedded code. -/
structure Link where
  url : String
  size : Nat
  hashes : List (LinkHash × String)
deriving DecidableEq

/-- Rust `HashMap::insert` on the association-list model (replaces an existing
    binding, otherwise appends). -/
def hashInsert (m : List (LinkHash × String)) (k : LinkHash) (v : String) : List (LinkHash × String) :=
  if m.any (fun p => p.1 = k) then
    m.map (fun p => if p.1 = k then (k, v) else p)
  else
    m ++ [(k, v)]

/-! ## `src/distro.rs` -/

/-- Rust `Key` (`src/distro.rs`): the repository verification key policy. -/
inductive KeyPolicy where
  | Key (url : String)
  | ArmoredKey (url : String)
  | NoSignatureCheck
deriving DecidableEq

/-- Rust `Distro` (`src/distro.rs`). -/
structure Distro where
  url : String
  name : Option String
  path : Option String
  key : KeyPolicy
deriving DecidableEq

/-- Rust `util::join_url`: exactly one `/` between base and path, `./` is
    dropped, a leading `/` of the path is stripped. -/
def join_url (base path : String) : String :=
  let url := if base.data.getLast? = some '/' then base else base ++ "/"
  let path :=
    if path = "./" then ""
    else
      match path.data with
      | '/' :: rest => String.mk rest
      | _ => path
  url ++ path

/-- Rust `Distro::url(path, package)`. For `package = true` (the only use in the
    package parsers) this is `join_url(base, path)`; the `package = false`
    branch with neither name nor path set hits an `assert!(false)` in Rust
    and is modelled by returning the path itself (no claim exercises it). -/
def Distro.mkUrl (d : Distro) (path : String) (package : Bool) : String :=
  if package then join_url d.url path
  else
    let rel :=
      match d.name with
      | some name => join_url ("dists/" ++ name) path
      | none =>
        match d.path with
        | some dist_path => join_url dist_path path
        | none => path
    join_url d.url rel

/-! ## `src/util.rs` -/

/-- Rust `str::lines` on a character list: split on `'\n'`, strip one
    trailing `'\r'` per line, and drop the final empty piece produced by a
    trailing newline. -/
def rustLines (l : List Char) : List (List Char) :=
  let pieces := splitOnChar '\n' l
  let pieces :=
    match pieces.getLast? with
    | some [] => pieces.dropLast
    | _ => pieces
  pieces.map (fun line =>
    match line.getLast? with
    | some '\r' => line.dropLast
    | _ => line)

/-- Rust `HashMap::insert` for the stanza key/value map. -/
def kvInsert (m : List (String × String)) (k v : String) : List (String × String) :=
  if m.any (fun p => p.1 = k) then
    m.map (fun p => if p.1 = k then (k, v) else p)
  else
    m ++ [(k, v)]

/-- The body of `parse_stanza`'s line loop: `key`/`value` accumulate the
    current logical field, finished fields are inserted with a lowercased
    key. Lines without `:` outside a continuation leave `key`/`value`
    untouched (they only log). -/
def parseStanzaGo (kv : List (String × String)) (key value : List Char) :
    List (List Char) → List (String × String)
  | [] => if key ≠ [] then kvInsert kv (String.mk (lowerChars key)) (String.mk value) else kv
  | line :: rest =>
    if trimChars line = [] then
      parseStanzaGo kv key value rest
    else if line.head? = some ' ' then
      if key = [] then
        parseStanzaGo kv key value rest
      else
        parseStanzaGo kv key (value ++ '\n' :: trimChars line) rest
    else
      let kv := if key ≠ [] then kvInsert kv (String.mk (lowerChars key)) (String.mk value) else kv
      match splitAtFirst ':' line with
      | some (k, v) => parseStanzaGo kv (trimChars k) (trimChars v) rest
      | none => parseStanzaGo kv key value rest

/-- Rust `util::parse_stanza`: stanza text to key/value map. -/
def parse_stanza (stanza : String) : List (String × String) :=
  parseStanzaGo [] [] [] (rustLines stanza.data)

/-- Parse the comma-separated pieces of a dependency field, flattening the
    alternatives of each piece; the first failure aborts the field, a slice
    panic aborts the call. -/
def parsePackageRelationGo : List (List Char) → Option (Except RustError (List PackageVersion))
  | [] => some (.ok [])
  | p :: ps =>
    match PackageVersion.fromStr (String.mk p) with
    | none => none
    | some (.error e) => some (.error e)
    | some (.ok pvs) =>
      match parsePackageRelationGo ps with
      | none => none
      | some (.error e) => some (.error e)
      | some (.ok rest) => some (.ok (pvs ++ rest))

/-- Rust `util::parse_package_relation`: split on `,`, trim, parse each
    dependency expression, flatten. -/
def parse_package_relation (depends : String) : Option (Except RustError (List PackageVersion)) :=
  parsePackageRelationGo ((splitOnChar ',' depends.data).map trimChars)

/-! ### Digest verification (`verify_hash`, `download_compressed`)

The cryptographic digest and decompression primitives are external crates
(out of scope per the spec); they are modelled as parameters so the
verification *policy* of `src/util.rs` can be proved for every
implementation of the primitives. -/

/-- The external digest primitives: each maps raw bytes to the string
    produced by `format!("{:x}", digest)` in Rust. -/
structure Hashers where
  sha512 : List Nat → String
  sha256 : List Nat → String
  sha1 : List Nat → String
  md5 : List Nat → String

/-- Rust `util::verify_hash(content, link)`: pick the strongest declared hash
    (SHA512, then SHA256, SHA1, MD5), compute it over `content`, lowercase
    the declared digest and compare; no declared hash at all is an error. -/
def verify_hash (hs : Hashers) (content : List Nat) (link : Link) : Except RustError Unit :=
  let chosen : Option (String × String × String) :=
    match link.hashes.lookup .Sha512 with
    | some hash => some ("SHA512", hash, hs.sha512 content)
    | none =>
      match link.hashes.lookup .Sha256 with
      | some hash => some ("SHA256", hash, hs.sha256 content)
      | none =>
        match link.hashes.lookup .Sha1 with
        | some hash => some ("SHA1", hash, hs.sha1 content)
        | none =>
          match link.hashes.lookup .Md5 with
          | some hash => some ("MD5", hash, hs.md5 content)
          | none => none
  match chosen with
  | none => .error (RustError.new (s!"No hash for URL {link.url} provided!") .Download)
  | some (name, hash, data_hash) =>
    let hash := lowerStr hash
    if hash ≠ data_hash then
      .error (RustError.new (s!"{name} hash verification of URL {link.url} failed!") .Download)
    else
      .ok ()

/-- The external transport and codec operations used by
    `download_compressed`: the raw `result.bytes()` outcome and the three
    content decoders. -/
structure FetchEnv where
  fetched : Except RustError (List Nat)
  xzDecompress : List Nat → Except RustError (List Nat)
  gzReadToString : List Nat → Except RustError String
  utf8 : List Nat → Except RustError String
  utf8Lossy : List Nat → String

/-- Rust `str::ends_with` for a short suffix. -/
def endsWithStr (s suffix : String) : Bool :=
  decide (s.data.drop (s.data.length - suffix.data.length) = suffix.data)

/-- Rust `util::download_compressed(link)`: fetch the raw bytes, verify the digest
    on them, then decompress according to the URL extension. -/
def download_compressed (hs : Hashers) (env : FetchEnv) (link : Link) : Except RustError String :=
  if endsWithStr link.url (".xz") then
    match env.fetched with
    | .error e => .error e
    | .ok data =>
      match verify_hash hs data link with
      | .error e => .error e
      | .ok _ =>
        match env.xzDecompress data with
        | .error e => .error e
        | .ok content => .ok (env.utf8Lossy content)
  else if endsWithStr link.url (".gz") then
    match env.fetched with
    | .error e => .error e
    | .ok data =>
      match verify_hash hs data link with
      | .error e => .error e
      | .ok _ => env.gzReadToString data
  else
    match env.fetched with
    | .error e => .error e
    | .ok data =>
      match verify_hash hs data link with
      | .error e => .error e
      | .ok _ => env.utf8 data

/-! ## `src/package.rs` -/

/-- Rust `Package` (`src/package.rs`). -/
structure Package where
  package : String
  source : Option String
  «section» : Option String
  priority : Option Priority
  architecture : Option Architecture
  essential : Option Bool
  depends : List PackageVersion
  pre_depends : List PackageVersion
  recommends : List PackageVersion
  suggests : List PackageVersion
  breaks : List PackageVersion
  conflicts : List PackageVersion
  provides : List PackageVersion
  replaces : List PackageVersion
  enhances : List PackageVersion
  version : Version
  installed_size : Option Nat
  link : Link
  maintainer : String
  description : String
  description_md5 : Option String
  homepage : Option String
  built_using : List PackageVersion
  issues : List RustError
deriving DecidableEq

/-- Rust `Package::new`. -/
def Package.new (package : String) (version : Version) (size : Nat)
    (filename maintainer description : String) : Package where
  package := package
  source := none
  «section» := none
  priority := none
  architecture := none
  essential := none
  depends := []
  pre_depends := []
  recommends := []
  suggests := []
  breaks := []
  conflicts := []
  provides := []
  replaces := []
  enhances := []
  version := version
  installed_size := none
  link := ⟨filename, size, []⟩
  maintainer := maintainer
  description := description
  description_md5 := none
  homepage := none
  built_using := []
  issues := []

/-- Rust `kv.get("source")` block of `Package::from_stanza`. -/
def applySource (kv : List (String × String)) (p : Package) : Package :=
  match kv.lookup ("source") with
  | some source => { p with source := some source }
  | none => p

/-- Rust `kv.get("section")` block. -/
def applySection (kv : List (String × String)) (p : Package) : Package :=
  match kv.lookup ("section") with
  | some sec => { p with «section» := some sec }
  | none => p

/-- Rust `kv.get("architecture")` block: uses `?`, so a parse failure would be a
    hard error (though `Architecture::from_str` in fact never fails). -/
def applyArchitecture (kv : List (String × String)) (p : Package) : Except RustError Package :=
  match kv.lookup ("architecture") with
  | some architecture =>
    match Architecture.fromStr architecture with
    | .ok a => .ok { p with architecture := some a }
    | .error e => .error e
  | none => .ok p

/-- One `kv.get(<hash field>)` block: records the digest on the link. -/
def applyHash (kv : List (String × String)) (field : String) (h : LinkHash) (p : Package) : Package :=
  match kv.lookup field with
  | some v => { p with link := { p.link with hashes := hashInsert p.link.hashes h v } }
  | none => p

/-- Rust `kv.get("description-md5")` block. -/
def applyDescriptionMd5 (kv : List (String × String)) (p : Package) : Package :=
  match kv.lookup ("description-md5") with
  | some v => { p with description_md5 := some v }
  | none => p

/-- Rust `kv.get("homepage")` block. -/
def applyHomepage (kv : List (String × String)) (p : Package) : Package :=
  match kv.lookup ("homepage") with
  | some v => { p with homepage := some v }
  | none => p

/-- Rust `kv.get("priority")` block: a parse failure is pushed on `issues`. -/
def applyPriority (kv : List (String × String)) (p : Package) : Package :=
  match kv.lookup ("priority") with
  | some priority =>
    match Priority.fromStr priority with
    | .ok x => { p with priority := some x }
    | .error e => { p with issues := p.issues ++ [e] }
  | none => p

/-- Rust `kv.get("essential")` block: `Some(true)` iff the lowercased value is
    `"true"`, otherwise `Some(false)`; never fails. -/
def applyEssential (kv : List (String × String)) (p : Package) : Package :=
  match kv.lookup ("essential") with
  | some essential => { p with essential := some (lowerStr essential = "true") }
  | none => p

/-- Rust `kv.get("installed-size")` block: a `u32` parse failure is pushed on
    `issues`. -/
def applyInstalledSize (kv : List (String × String)) (p : Package) : Package :=
  match kv.lookup ("installed-size") with
  | some installed_size =>
    match parseUInt 32 installed_size.data with
    | some is => { p with installed_size := some is }
    | none =>
      { p with issues := p.issues ++ [RustError.new ("Parsing of installed_size failed!") .PackageFormat] }
  | none => p

/-- One dependency-class block (`depends`, `pre-depends`, ...): on success
    the parsed list is stored via `setter`, a parse failure is pushed on
    `issues`, and a slice panic inside the dependency grammar propagates
    (`none`). -/
def applyDependencyField (kv : List (String × String)) (field : String)
    (setter : Package → List PackageVersion → Package) (p : Package) : Option Package :=
  match kv.lookup field with
  | some v =>
    match parse_package_relation v with
    | none => none
    | some (.ok pvs) => some (setter p pvs)
    | some (.error e) => some { p with issues := p.issues ++ [e] }
  | none => some p

/-- The ten dependency-class blocks of `Package::from_stanza`, as
    (field, setter) pairs in source order. -/
def depFieldsList : List (String × (Package → List PackageVersion → Package)) :=
  [("depends", fun p v => { p with depends := v }),
   ("pre-depends", fun p v => { p with pre_depends := v }),
   ("recommends", fun p v => { p with recommends := v }),
   ("suggests", fun p v => { p with suggests := v }),
   ("breaks", fun p v => { p with breaks := v }),
   ("conflicts", fun p v => { p with conflicts := v }),
   ("provides", fun p v => { p with provides := v }),
   ("replaces", fun p v => { p with replaces := v }),
   ("enhances", fun p v => { p with enhances := v }),
   ("built-using", fun p v => { p with built_using := v })]

/-- Apply a sequence of dependency-class blocks in order, propagating a
    panic from any of them. -/
def applyDepFields (kv : List (String × String)) :
    List (String × (Package → List PackageVersion → Package)) → Package → Option Package
  | [], p => some p
  | (field, setter) :: rest, p =>
    match applyDependencyField kv field setter p with
    | none => none
    | some q => applyDepFields kv rest q

/-- The hash/description/homepage/priority/essential/installed-size and
    dependency-class blocks of `Package::from_stanza`, applied in source
    order (sequential rebinding in Rust = function composition here); the
    dependency blocks can panic. -/
def applyTailFields (kv : List (String × String)) (p : Package) : Option Package :=
  applyDepFields kv depFieldsList
    (applyInstalledSize kv
     (applyEssential kv
      (applyPriority kv
       (applyHomepage kv
        (applyDescriptionMd5 kv
         (applyHash kv ("sha512") .Sha512
          (applyHash kv ("sha256") .Sha256
           (applyHash kv ("sha1") .Sha1
            (applyHash kv ("md5sum") .Md5 p)))))))))

/-- The optional-field section of `Package::from_stanza`, applied to the
    freshly constructed record in source order. -/
def applyOptionalFields (kv : List (String × String)) (p : Package) :
    Option (Except RustError Package) :=
  match applyArchitecture kv (applySection kv (applySource kv p)) with
  | .error e => some (.error e)
  | .ok p =>
    match applyTailFields kv p with
    | none => none
    | some q => some (.ok q)

/-- The body of `Package::from_stanza` over the already-built key/value
    map: the six required fields produce hard errors when missing (or, for
    `version`/`size`, unparseable); everything else is best-effort. -/
def Package.fromStanzaKV (kv : List (String × String)) (stanza : String)
    (distro : Distro) : Option (Except RustError Package) :=
  match kv.lookup ("package") with
  | none => some (.error (RustError.new (s!"Invalid stanza, package missing!\n{stanza}") .PackageFormat))
  | some name =>
  match kv.lookup ("version") with
  | none => some (.error (RustError.new (s!"Invalid stanza, version missing!\n{stanza}") .PackageFormat))
  | some versionStr =>
  match Version.fromStr versionStr with
  | .error e => some (.error e)
  | .ok version =>
  match kv.lookup ("size") with
  | none => some (.error (RustError.new (s!"Invalid stanza, version missing!\n{stanza}") .PackageFormat))
  | some sizeStr =>
  match parseUInt 64 sizeStr.data with
  | none => some (.error (RustError.new ("Parsing of size failed!") .PackageFormat))
  | some size =>
  match kv.lookup ("filename") with
  | none => some (.error (RustError.new (s!"Invalid stanza, filename missing!\n{stanza}") .PackageFormat))
  | some filenameStr =>
  match kv.lookup ("maintainer") with
  | none => some (.error (RustError.new (s!"Invalid stanza, maintainer missing!\n{stanza}") .PackageFormat))
  | some maintainer =>
  match kv.lookup ("description") with
  | none => some (.error (RustError.new (s!"Invalid stanza, description missing!\n{stanza}") .PackageFormat))
  | some description =>
    applyOptionalFields kv
      (Package.new name version size (distro.mkUrl filenameStr true) maintainer description)

/-- Rust `Package::from_stanza`; `none` models a panic escaping from the
    dependency grammar's slicing. -/
def Package.fromStanza (stanza : String) (distro : Distro) : Option (Except RustError Package) :=
  Package.fromStanzaKV (parse_stanza stanza) stanza distro

/-- Rust `Ord for Package` (`cmp`): delegates to the version order, hence can
    panic. -/
def Package.cmpOpt (a b : Package) : Option Ordering :=
  Version.cmp a.version b.version

/-! ## Sorting (`Vec::sort` via `Ord`)

Rust's `Vec::sort` is a stable sort driven by `Ord::cmp`; since `cmp` can
panic, sorting can panic. It is modelled as a stable insertion sort in the
`Option` monad: any executed comparison that panics makes the whole sort
panic, and for comparators that are total and transitive on the elements a
stable sort is unique, so this agrees with Rust's merge sort there. -/

/-- Insert `a` into `l` before the first element `b` with `cmp a b ≠ gt`
    (stable position for an element originally preceding `l`). -/
def orderedInsertOpt {α : Type} (cmp : α → α → Option Ordering) (a : α) :
    List α → Option (List α)
  | [] => some [a]
  | b :: l =>
    match cmp a b with
    | none => none
    | some .gt => (orderedInsertOpt cmp a l).map (fun r => b :: r)
    | some _ => some (a :: b :: l)

/-- Stable insertion sort in the `Option` monad. -/
def sortOpt {α : Type} (cmp : α → α → Option Ordering) : List α → Option (List α)
  | [] => some []
  | a :: l =>
    match sortOpt cmp l with
    | none => none
    | some l' => orderedInsertOpt cmp a l'

/-- The version-relation filter of `get`: `.filter(|p| rel.matches(&p.version))`
    over an iterator, in the `Option` monad because `matches` can panic. -/
def filterMatchesOpt {α : Type} (ver : α → Version) (rel : PackageVersion) :
    List α → Option (List α)
  | [] => some []
  | p :: ps =>
    match rel.matches (ver p) with
    | none => none
    | some true => (filterMatchesOpt ver rel ps).map (fun r => p :: r)
    | some false => filterMatchesOpt ver rel ps

/-- The shared body of `PackageIndex::get` and `SourceIndex::get` once the
    name lookup succeeded: filter by name and relation, sort, return the
    last element. The outer `Option` is the panic layer, the inner the
    `Option<Package>` result. -/
def getFromList {α : Type} (name : α → String) (ver : α → Version)
    (cmp : α → α → Option Ordering) (queryName : String)
    (version : Option PackageVersion) (packages : List α) : Option (Option α) :=
  let filtered : Option (List α) :=
    match version with
    | some rel => filterMatchesOpt ver rel (packages.filter (fun p => queryName = name p))
    | none => some packages
  match filtered with
  | none => none
  | some packages =>
    match sortOpt cmp packages with
    | none => none
    | some sorted => some sorted.getLast?

/-! ## `src/package_index.rs` -/

/-- Rust `PackageIndex` (`src/package_index.rs`): the `HashMap<String, Vec<Package>>`
    is modelled as an association list. -/
structure PackageIndex where
  architecture : Architecture
  package_map : List (String × List Package)
  issues : List RustError

/-- Rust `PackageIndex::get(name, version)`: `none` models a panic while
    filtering or sorting; `some none` is Rust's `None`. -/
def PackageIndex.get (idx : PackageIndex) (name : String)
    (version : Option PackageVersion) : Option (Option Package) :=
  match idx.package_map.lookup name with
  | some packages => getFromList Package.package Package.version Package.cmpOpt name version packages
  | none => some none

/-! ## `src/source.rs` -/

/-- Rust `PackageReference` (`src/source.rs`). -/
structure PackageReference where
  name : String
  package_type : String
  «section» : String
  priority : Priority
  architecture : List Architecture
deriving DecidableEq

/-- Rust `Source` (`src/source.rs`): note there is no `issues` field — every
    parse failure in `Source::from_stanza` is a hard error. -/
structure Source where
  format : String
  package : String
  binary : List String
  architecture : List Architecture
  version : Version
  maintainer : String
  uploaders : List String
  homepage : Option String
  vcs_arch : Option String
  vcs_bzr : Option String
  vcs_cvs : Option String
  vcs_darcs : Option String
  vcs_git : Option String
  vcs_hg : Option String
  vcs_mtn : Option String
  vcs_svn : Option String
  vcs_browser : Option String
  testsuite : List String
  dgit : Option String
  standards_version : Option String
  build_depends : List PackageVersion
  build_depends_indep : List PackageVersion
  build_depends_arch : List PackageVersion
  build_conflicts : List PackageVersion
  build_conflicts_indep : List PackageVersion
  build_conflicts_arch : List PackageVersion
  package_list : List PackageReference
  links : List (String × Link)
  directory : String
  priority : Option Priority
  «section» : Option String
deriving DecidableEq

/-- Rust `Ord for Source` (`cmp`): delegates to the version order. -/
def Source.cmpOpt (a b : Source) : Option Ordering :=
  Version.cmp a.version b.version

/-! ## `src/source_index.rs` -/

/-- Rust `SourceIndex` (`src/source_index.rs`). -/
structure SourceIndex where
  package_map : List (String × List Source)
  issues : List RustError

/-- Rust `SourceIndex::get(name, version)`: same shape as the binary `get`. -/
def SourceIndex.get (idx : SourceIndex) (name : String)
    (version : Option PackageVersion) : Option (Option Source) :=
  match idx.package_map.lookup name with
  | some packages => getFromList Source.package Source.version Source.cmpOpt name version packages
  | none => some none

/-! ## `src/signature.rs`

The `pgp` crate's key/message types and operations, the HTTP download and
the filesystem read are external; they are modelled as parameters (`K` is
`SignedPublicKey`, `M` is `CleartextSignedMessage`, string-typed errors
stand for the external error values that are only ever formatted into
messages). -/

/-- The externally provided operations used by `_get_key_content`,
    `_get_key` and `verify_in_release`. -/
structure PgpEnv (K M : Type) where
  /-- Outcome of `_get_key_content(url)` (download or file read mapped to a
      `Verification` error by the source). -/
  getKeyContent : String → Except RustError String
  /-- Rust `SignedPublicKey::from_string(content)`. -/
  keyFromString : String → Except String K
  /-- Rust `File::open(url)` followed by `SignedPublicKey::from_bytes(...)`. -/
  keyFromFile : String → Except String K
  /-- Rust `key.verify()`. -/
  keyVerify : K → Except String Unit
  /-- Rust `CleartextSignedMessage::from_string(content)`. -/
  cleartextFromString : String → Except String M
  /-- Rust `inrelease.verify(&key)`. -/
  messageVerify : M → K → Except String Unit
  /-- Rust `inrelease.text()`. -/
  messageText : M → String

/-- Rust `_get_key(distro)`: load the configured key and check its
    self-signatures; `Ok(None)` when signature checking is disabled. -/
def getKey {K M : Type} (env : PgpEnv K M) (distro : Distro) : Except RustError (Option K) :=
  let keyE : Except RustError (Option K) :=
    match distro.key with
    | .ArmoredKey url =>
      match env.getKeyContent url with
      | .error e => .error e
      | .ok content =>
        match env.keyFromString content with
        | .ok k => .ok (some k)
        | .error e => .error (RustError.new (s!"Loading key {url} failed! {e}") .Verification)
    | .Key url =>
      match env.keyFromFile url with
      | .ok k => .ok (some k)
      | .error e => .error (RustError.new (s!"Loading key failed! {e}") .Verification)
    | .NoSignatureCheck => .ok none
  match keyE with
  | .error e => .error e
  | .ok none => .ok none
  | .ok (some key) =>
    match env.keyVerify key with
    | .ok _ => .ok (some key)
    | .error e => .error (RustError.new (s!"Public key is NOT OK! {e}") .Verification)

/-- Rust `verify_in_release(content, distro)`. The outer `Option` is the panic
    layer: `CleartextSignedMessage::from_string(&content).unwrap()` panics
    when the content is not a well-formed cleartext-signed message. -/
def verify_in_release {K M : Type} (env : PgpEnv K M) (content : String)
    (distro : Distro) : Option (Except RustError String) :=
  match getKey env distro with
  | .error e => some (.error e)
  | .ok none => some (.ok content)
  | .ok (some key) =>
    match env.cleartextFromString content with
    | .error _ => none
    | .ok inrelease =>
      match env.messageVerify inrelease key with
      | .ok _ => some (.ok (env.messageText inrelease))
      | .error e => some (.error (RustError.new (s!"InRelease signature is NOT OK! {e}") .Verification))

deriving instance DecidableEq for Except

/-- A distro value used for concrete stanza-parsing inputs
    (`Distro::repo("http://archive.example/repo", "suite", NoSignatureCheck)`). -/
def testDistro : Distro :=
  ⟨"http://archive.example/repo", some "suite", none, .NoSignatureCheck⟩

/-- A binary package stanza whose `Depends` entry carries an architecture
    qualifier outside the known architecture set. -/
def c6Stanza : String :=
  "Package: foo\nVersion: 1.0\nSize: 10\nFilename: pool/foo.deb\nMaintainer: m\nDescription: d\nDepends: bar:armv99 (>= 2.0)"

set_option maxHeartbeats 4000000 in

/-- A small populated binary index (one name, one stored package). -/
def c10Index : PackageIndex :=
  ⟨.Amd64, [("foo", [Package.new "foo" ⟨none, "1.0", none⟩ 1 "pool/foo.deb" "m" "d"])], []⟩


/-- The concrete environment for the C9 witness: the key loads and
    self-verifies, but the content fails cleartext parsing. -/
def c9Env : PgpEnv Unit Unit where
  getKeyContent := fun _ => .ok "key material"
  keyFromString := fun _ => .ok ()
  keyFromFile := fun _ => .ok ()
  keyVerify := fun _ => .ok ()
  cleartextFromString := fun _ => .error "malformed"
  messageVerify := fun _ _ => .ok ()
  messageText := fun _ => ""


/-- Spec-side definition (from the spec's words, for comparison with the
    code): "choose the strongest declared hash in the order
    SHA512 > SHA256 > SHA1 > MD5". -/
def specStrongestHash (link : Link) : Option (LinkHash × String) :=
  match link.hashes.lookup .Sha512 with
  | some h => some (.Sha512, h)
  | none =>
    match link.hashes.lookup .Sha256 with
    | some h => some (.Sha256, h)
    | none =>
      match link.hashes.lookup .Sha1 with
      | some h => some (.Sha1, h)
      | none =>
        match link.hashes.lookup .Md5 with
        | some h => some (.Md5, h)
        | none => none

/-- Dispatch a hash kind to the matching external digest primitive. -/
def applyHasher (hs : Hashers) : LinkHash → List Nat → String
  | .Sha512 => hs.sha512
  | .Sha256 => hs.sha256
  | .Sha1 => hs.sha1
  | .Md5 => hs.md5



/-- Rust `true` iff the `Except` value is an error. -/
def exceptIsError {α : Type} : Except RustError α → Bool
  | .error _ => true
  | .ok _ => false

/-- Spec-side characterization (C7): a binary package stanza is fatally
    malformed iff one of the six required fields `package`, `version`,
    `size`, `filename`, `maintainer`, `description` is missing, or the
    `version`/`size` value does not parse. -/
def packageStanzaFatal (kv : List (String × String)) : Bool :=
  (kv.lookup ("package")).isNone ||
  (match kv.lookup ("version") with
   | none => true
   | some v => exceptIsError (Version.fromStr v)) ||
  (match kv.lookup ("size") with
   | none => true
   | some s => (parseUInt 64 s.data).isNone) ||
  (kv.lookup ("filename")).isNone ||
  (kv.lookup ("maintainer")).isNone ||
  (kv.lookup ("description")).isNone

/-- The recoverable issue (if any) contributed by the `priority` field. -/
def priorityIssue (kv : List (String × String)) : List RustError :=
  match kv.lookup ("priority") with
  | some v =>
    match Priority.fromStr v with
    | .error e => [e]
    | .ok _ => []
  | none => []

/-- The recoverable issue (if any) contributed by `installed-size`. -/
def installedSizeIssue (kv : List (String × String)) : List RustError :=
  match kv.lookup ("installed-size") with
  | some v =>
    match parseUInt 32 v.data with
    | none => [RustError.new ("Parsing of installed_size failed!") .PackageFormat]
    | some _ => []
  | none => []

/-- The recoverable issue (if any) contributed by one dependency-class
    field. A panicking value contributes nothing: no record is returned at
    all in that case. -/
def depFieldIssue (kv : List (String × String)) (field : String) : List RustError :=
  match kv.lookup field with
  | some v =>
    match parse_package_relation v with
    | some (.error e) => [e]
    | _ => []
  | none => []

/-- Whether one dependency-class field's value makes the dependency grammar
    panic (its slicing hits `start + 1 > end`). -/
def depFieldPanics (kv : List (String × String)) (field : String) : Bool :=
  match kv.lookup field with
  | some v => (parse_package_relation v).isNone
  | none => false

/-- The recoverable issues contributed by a sequence of dependency-class
    fields, in order. -/
def depListIssues (kv : List (String × String)) :
    List (String × (Package → List PackageVersion → Package)) → List RustError
  | [] => []
  | (field, _) :: rest => depFieldIssue kv field ++ depListIssues kv rest

/-- Whether any field of a dependency-class sequence panics. -/
def depListPanics (kv : List (String × String)) :
    List (String × (Package → List PackageVersion → Package)) → Bool
  | [] => false
  | (field, _) :: rest => depFieldPanics kv field || depListPanics kv rest

/-- Spec-side characterization (C7): some dependency-class field of the
    stanza has a panicking value. -/
def anyDepFieldPanics (kv : List (String × String)) : Bool :=
  depListPanics kv depFieldsList

/-- Spec-side characterization (C7): the recoverable issues a stanza
    contributes, in the order the parser appends them. -/
def stanzaIssues (kv : List (String × String)) : List RustError :=
  priorityIssue kv ++ installedSizeIssue kv ++ depListIssues kv depFieldsList

/-- A stanza with all six required fields and one malformed optional field
    (`Priority`), for the C7 witness. -/
def c7Stanza : String :=
  "Package: foo\nVersion: 1.0\nSize: 10\nFilename: pool/foo.deb\nMaintainer: m\nDescription: d\nPriority: wrong"

/-- A stanza whose required fields are all fine but whose `Depends` value
    has its first `)` before its first `(`: Rust panics on the slice
    `&desc[start + 1..end]` while parsing it. -/
def c7CexStanza : String :=
  "Package: foo\nVersion: 1.0\nSize: 10\nFilename: pool/foo.deb\nMaintainer: m\nDescription: d\nDepends: x ) ("

/-- Rust `a` is less-or-equal `b` under a (possibly panicking) three-way
    comparator: the comparison did not return `Greater`. -/
@[reducible] def cmpLe {α : Type} (cmp : α → α → Option Ordering) (a b : α) : Prop :=
  cmp a b ≠ some .gt

/-- Rust `p` is a maximum of `l` under the comparator. -/
def IsMaxOf {α : Type} (cmp : α → α → Option Ordering) (p : α) (l : List α) : Prop :=
  p ∈ l ∧ ∀ q ∈ l, cmpLe cmp q p

/-- The comparator behaves as a total preorder on the elements of `l`:
    every comparison is defined (no panic), mutually-`Greater` pairs do not
    occur, and `≤` is transitive. Ordinary Debian version lists satisfy
    this; the C4 counterexample shows a parseable list that does not. -/
@[reducible] def LawfulCmpOn {α : Type} (cmp : α → α → Option Ordering) (l : List α) : Prop :=
  (∀ a ∈ l, ∀ b ∈ l, cmp a b ≠ none) ∧
  (∀ a ∈ l, ∀ b ∈ l, cmp a b = some .gt → cmp b a ≠ some .gt) ∧
  (∀ a ∈ l, ∀ b ∈ l, ∀ c ∈ l, cmpLe cmp a b → cmpLe cmp b c → cmpLe cmp a c)

/-- Rust `rel.matches` does not panic on any element of `l`. -/
@[reducible] def MatchesDefinedOn {α : Type} (ver : α → Version) (rel : PackageVersion)
    (l : List α) : Prop :=
  ∀ p ∈ l, rel.matches (ver p) ≠ none

/-- The packages of `l` that pass `get`'s two filters for a query
    `(name, some rel)`. -/
def matchedPackages (name : String) (rel : PackageVersion) (l : List Package) : List Package :=
  (l.filter (fun p => name = p.package)).filter (fun p => rel.matches p.version == some true)

/-- Two stored packages whose versions make `Ord::cmp` panic (`None` epoch
    versus `Some(0)` epoch): parseable versions on which `get` dies. -/
def c4CexPackages : List Package :=
  [Package.new "p" ⟨none, "1.0", none⟩ 1 "pool/p1.deb" "m" "d",
   Package.new "p" ⟨some 0, "1.0", none⟩ 1 "pool/p2.deb" "m" "d"]

/-- A binary index holding `c4CexPackages` under the name `p`. -/
def c4CexIndex : PackageIndex := ⟨.Amd64, [("p", c4CexPackages)], []⟩

/-- A well-behaved two-element package list for the C4 witness. -/
def c4WitnessPackages : List Package :=
  [Package.new "p" ⟨none, "1.0", none⟩ 1 "pool/p1.deb" "m" "d",
   Package.new "p" ⟨none, "2.0", none⟩ 1 "pool/p2.deb" "m" "d"]

/-- A binary index holding `c4WitnessPackages` under the name `p`. -/
def c4WitnessIndex : PackageIndex := ⟨.Amd64, [("p", c4WitnessPackages)], []⟩

/-- Concrete digest primitives for the C8 witness (constant outputs). -/
def c8Hashers : Hashers :=
  ⟨fun _ => "sha512hex", fun _ => "sha256hex", fun _ => "sha1hex", fun _ => "md5hex"⟩

/-- A link declaring SHA256 (upper-case hex) and MD5: the strongest
    declared hash is SHA256. -/
def c8Link : Link :=
  ⟨"http://archive.example/Packages.xz", 9, [(.Md5, "zz"), (.Sha256, "SHA256HEX")]⟩

/-- A link declaring only a mismatching MD5. -/
def c8BadLink : Link := ⟨"http://archive.example/Packages", 9, [(.Md5, "zz")]⟩

/-- A transport/codec environment whose fetch yields the byte `9`. -/
def c8Env : FetchEnv :=
  ⟨.ok [9], fun d => .ok d, fun _ => .ok "", fun _ => .ok "", fun _ => ""⟩

/-! ## Claim C1 -/

/-- C1: the claim asserts that, mirroring Debian's ordering, an upstream
    extended by a part beginning with `~` compares LESS than the shorter
    upstream, e.g. `1.66~ < 1.66`. The code does the opposite: run-lists of
    different length are padded with an empty part, and the part-level loop
    returns `Greater` whenever the other side's part is the empty padding —
    before the `~` rule can apply — so `compare_version_str` yields
    `Greater` for `"1.66~"` versus `"1.66"`. -/
theorem c1_tilde_part_sorts_above_empty_padding :
    Version.fromStr ("1.66~") = .ok ⟨none, "1.66~", none⟩ ∧
    Version.fromStr ("1.66") = .ok ⟨none, "1.66", none⟩ ∧
    Version.cmp ⟨none, "1.66~", none⟩ ⟨none, "1.66", none⟩ = some .gt ∧
    compare_version_str ("1.66~").data ("1.66").data = some .gt := by
  refine ⟨by decide, by decide, by decide, by decide⟩

/-! ## Claim C2 -/

/-- C2: the claim asserts that an epoch-less version compares `Equal` to the
    same version with explicit epoch `0`. In the code, `compare_epoch`
    first compares the `Option` epochs (where `None ≠ Some(0)`), then
    unpacks both to `0`, finds neither side greater, and reaches
    `assert!(false, "This should not happen ...")` — a panic, modelled as
    `none`, instead of `Ordering::Equal`. -/
theorem c2_missing_epoch_vs_zero_epoch_panics :
    Version.fromStr ("1.0") = .ok ⟨none, "1.0", none⟩ ∧
    Version.fromStr ("0:1.0") = .ok ⟨some 0, "1.0", none⟩ ∧
    Version.cmp ⟨none, "1.0", none⟩ ⟨some 0, "1.0", none⟩ = none ∧
    Version.compare_epoch ⟨none, "1.0", none⟩ ⟨some 0, "1.0", none⟩ = none := by
  refine ⟨by decide, by decide, by decide, by decide⟩

/-! ## Claim C3 -/

/-- C3: the claim asserts that `cmp` is a total order defined on every pair
    of parseable versions (never hitting the `This should not happen`
    assertion). For the parseable versions `"a"` and `"a~"` every aligned
    part pair of `compare_version_str` falls through without a decision
    (the `~`-padded characters compare equal), so the trailing
    `assert!(false)` is reached — a panic, modelled as `none`. -/
theorem c3_cmp_partial_on_tilde_suffix :
    Version.fromStr ("a") = .ok ⟨none, "a", none⟩ ∧
    Version.fromStr ("a~") = .ok ⟨none, "a~", none⟩ ∧
    Version.cmp ⟨none, "a", none⟩ ⟨none, "a~", none⟩ = none := by
  refine ⟨by decide, by decide, by decide⟩

/-! ## Claim C5 -/

/-- C5: the claim asserts `Priority::from_str("important")` yields
    `Important`. The source compares against the misspelt literal
    `"mportant"`, so `"important"` is rejected with an `UnknownPriority`
    error while `"mportant"` is accepted. -/
theorem c5_important_misspelt :
    Priority.fromStr ("important") =
      .error (RustError.new ("Priority important is not known!") .UnknownPriority) ∧
    Priority.fromStr ("mportant") = .ok .Important ∧
    Priority.fromStr ("required") = .ok .Required ∧
    Priority.fromStr ("standard") = .ok .Standard ∧
    Priority.fromStr ("optional") = .ok .Optional ∧
    Priority.fromStr ("extra") = .ok .Extra := by
  refine ⟨by decide, by decide, by decide, by decide, by decide, by decide⟩

/-! ## Claim C6 -/

/-- C6 (counterexample): the claim asserts that a dependency whose
    architecture qualifier is an unknown token fails to parse and that the
    failure lands on the record's `issues` list. In fact
    `Architecture::from_str` classifies unknown tokens as
    `Architecture::Other`, the dependency parses successfully, and the
    record carries no issue. -/
theorem c6_unknown_arch_parses_as_other :
    PackageVersion.singleFormStr ("bar:armv99 (>= 2.0)") =
      some (.ok [⟨"bar", some (.Other ("armv99")), some ⟨none, "2.0", none⟩, some .Larger⟩]) ∧
    ∃ pkg, Package.fromStanza c6Stanza testDistro = some (.ok pkg) ∧
      pkg.depends = [⟨"bar", some (.Other ("armv99")), some ⟨none, "2.0", none⟩, some .Larger⟩] ∧
      pkg.issues = [] := by
  refine ⟨by decide, ?_⟩
  refine ⟨_, rfl, by decide, by decide⟩

set_option maxHeartbeats 4000000 in
/-- C6 (amended): parsing an architecture token never fails —
    `Architecture::from_str` maps every unknown token to the catch-all
    `Other` — so a dependency expression with an out-of-set architecture
    qualifier or bracketed list parses successfully (its failure modes are
    only the relation and the version) and no issue is recorded for the
    architecture. -/
theorem c6_architecture_from_str_total :
    (∀ s : String, ∃ a, Architecture.fromStr s = .ok a) ∧
    PackageVersion.singleFormStr ("foo (>= 1.0) [amd64 armv99]") =
      some (.ok [⟨"foo", some .Amd64, some ⟨none, "1.0", none⟩, some .Larger⟩,
           ⟨"foo", some (.Other ("armv99")), some ⟨none, "1.0", none⟩, some .Larger⟩]) := by
  constructor
  · intro s
    unfold Architecture.fromStr
    repeat' split
    all_goals exact ⟨_, rfl⟩
  · decide

/-! ## Claim C10 -/

/-- Helper: when the relation carries no version, `PackageVersion::matches`
    is `false` on every candidate, so the monadic filter keeps nothing. -/
theorem filterMatchesOpt_version_none {α : Type} (ver : α → Version) (pv : PackageVersion)
    (h : pv.version = none) : ∀ l : List α, filterMatchesOpt ver pv l = some [] := by
  intro l
  induction l with
  | nil => rfl
  | cons p ps ih => simp [filterMatchesOpt, PackageVersion.matches, h, ih]

/-- C10: a `get` query whose `PackageVersion` carries no version returns
    `None` (without panicking) on both index types, for every index and
    name — `matches` rejects every candidate when its own version field is
    absent. -/
theorem c10_versionless_relation_matches_nothing (pv : PackageVersion)
    (h : pv.version = none) :
    (∀ v : Version, pv.matches v = some false) ∧
    (∀ (idx : PackageIndex) (name : String), idx.get name (some pv) = some none) ∧
    (∀ (idx : SourceIndex) (name : String), idx.get name (some pv) = some none) := by
  refine ⟨fun v => by simp [PackageVersion.matches, h], fun idx name => ?_, fun idx name => ?_⟩
  · unfold PackageIndex.get
    cases idx.package_map.lookup name with
    | none => rfl
    | some packages =>
      simp [getFromList, filterMatchesOpt_version_none _ pv h, sortOpt]
  · unfold SourceIndex.get
    cases idx.package_map.lookup name with
    | none => rfl
    | some packages =>
      simp [getFromList, filterMatchesOpt_version_none _ pv h, sortOpt]

/-- Witness for C10 at a concrete versionless relation and populated
    index. -/
theorem c10_versionless_relation_matches_nothing_witness :
    PackageIndex.get c10Index "foo" (some ⟨"foo", none, none, none⟩) = some none :=
  (c10_versionless_relation_matches_nothing ⟨"foo", none, none, none⟩ rfl).2.1 c10Index "foo"

/-! ## Claim C9 -/

/-- C9: with a `Key::Key`/`Key::ArmoredKey` policy whose key loads and
    self-verifies, `verify_in_release` panics (the `unwrap` on
    `CleartextSignedMessage::from_string`) on any content that is not a
    well-formed cleartext-signed message; an error value is only ever
    returned when key loading, key self-verification, or signature
    verification fails. -/
theorem c9_unwrap_panics_on_malformed_cleartext {K M : Type} (env : PgpEnv K M)
    (distro : Distro) (content : String) :
    (∀ k, getKey env distro = .ok (some k) →
      (∀ e, env.cleartextFromString content = .error e →
        verify_in_release env content distro = none)) ∧
    (∀ e, verify_in_release env content distro = some (.error e) →
      getKey env distro = .error e ∨
      (∃ k m, getKey env distro = .ok (some k) ∧
        env.cleartextFromString content = .ok m ∧
        (∃ e', env.messageVerify m k = .error e'))) := by
  constructor
  · intro k hk e he
    unfold verify_in_release
    rw [hk, he]
  · intro e h
    unfold verify_in_release at h
    split at h
    · next e0 heq =>
        left
        injection h with h1
        injection h1 with h2
        rw [heq, h2]
    · next heq =>
        injection h with h1
        exact Except.noConfusion h1
    · next k heq =>
        split at h
        · exact Option.noConfusion h
        · next m hm =>
            split at h
            · injection h with h1
              exact Except.noConfusion h1
            · next e0 hv =>
                right
                exact ⟨k, m, heq, hm, ⟨e0, hv⟩⟩

/-- Witness for C9: a distro with a binary key policy and non-cleartext
    content makes `verify_in_release` panic. -/
theorem c9_unwrap_panics_on_malformed_cleartext_witness :
    verify_in_release c9Env "not a pgp message" ⟨"http://u", some "n", none, .Key "k.gpg"⟩ = none :=
  (c9_unwrap_panics_on_malformed_cleartext c9Env ⟨"http://u", some "n", none, .Key "k.gpg"⟩
    "not a pgp message").1 () rfl "malformed" rfl

/-! ## Claim C8 -/

/-- Helper: an `Except RustError Unit` that is not `ok` is an error. -/
theorem except_unit_not_ok {x : Except RustError Unit} (h : x ≠ .ok ()) :
    ∃ e, x = .error e := by
  cases x with
  | error e => exact ⟨e, rfl⟩
  | ok u => cases u; exact absurd rfl h

/-- C8: `verify_hash` succeeds exactly when the strongest declared hash
    (SHA512 > SHA256 > SHA1 > MD5), computed by the corresponding digest
    primitive over the given bytes, equals the lowercased declared digest;
    a `Link` declaring no hash always fails; and `download_compressed` only
    succeeds when `verify_hash` passed on the raw fetched bytes (before any
    decompression), every digest mismatch aborting the fetch with an
    error. Quantified over all digest/transport/codec primitives. -/
theorem c8_digest_policy (hs : Hashers) (env : FetchEnv) (link : Link) (content : List Nat) :
    (verify_hash hs content link = .ok () ↔
      ∃ alg declared, specStrongestHash link = some (alg, declared) ∧
        applyHasher hs alg content = lowerStr declared) ∧
    (specStrongestHash link = none →
      verify_hash hs content link =
        .error (RustError.new (s!"No hash for URL {link.url} provided!") .Download)) ∧
    (∀ t, download_compressed hs env link = .ok t →
      ∃ data, env.fetched = .ok data ∧ verify_hash hs data link = .ok ()) ∧
    (∀ data, env.fetched = .ok data → verify_hash hs data link ≠ .ok () →
      ∃ e, download_compressed hs env link = .error e) := by
  refine ⟨?_, ?_, ?_, ?_⟩
  · unfold verify_hash specStrongestHash
    cases h512 : link.hashes.lookup .Sha512 with
    | some h =>
      simp only [applyHasher]
      constructor
      · intro hok
        refine ⟨.Sha512, h, rfl, ?_⟩
        by_contra hne
        simp only [applyHasher, if_neg, Ne] at hok
        rw [if_pos (fun he => hne he.symm)] at hok
        exact Except.noConfusion hok
      · rintro ⟨alg, d, hsome, heqv⟩
        injection hsome with h1
        injection h1 with ha hd
        subst ha; subst hd
        rw [if_neg ?_]
        intro hne
        exact hne heqv.symm
    | none =>
      cases h256 : link.hashes.lookup .Sha256 with
      | some h =>
        simp only [applyHasher]
        constructor
        · intro hok
          refine ⟨.Sha256, h, rfl, ?_⟩
          by_contra hne
          rw [if_pos (fun he => hne he.symm)] at hok
          exact Except.noConfusion hok
        · rintro ⟨alg, d, hsome, heqv⟩
          injection hsome with h1
          injection h1 with ha hd
          subst ha; subst hd
          rw [if_neg ?_]
          intro hne
          exact hne heqv.symm
      | none =>
        cases h1l : link.hashes.lookup .Sha1 with
        | some h =>
          simp only [applyHasher]
          constructor
          · intro hok
            refine ⟨.Sha1, h, rfl, ?_⟩
            by_contra hne
            rw [if_pos (fun he => hne he.symm)] at hok
            exact Except.noConfusion hok
          · rintro ⟨alg, d, hsome, heqv⟩
            injection hsome with h1
            injection h1 with ha hd
            subst ha; subst hd
            rw [if_neg ?_]
            intro hne
            exact hne heqv.symm
        | none =>
          cases hmd : link.hashes.lookup .Md5 with
          | some h =>
            simp only [applyHasher]
            constructor
            · intro hok
              refine ⟨.Md5, h, rfl, ?_⟩
              by_contra hne
              rw [if_pos (fun he => hne he.symm)] at hok
              exact Except.noConfusion hok
            · rintro ⟨alg, d, hsome, heqv⟩
              injection hsome with h1
              injection h1 with ha hd
              subst ha; subst hd
              rw [if_neg ?_]
              intro hne
              exact hne heqv.symm
          | none =>
            constructor
            · intro hok
              exact Except.noConfusion hok
            · rintro ⟨alg, d, hsome, heqv⟩
              exact Option.noConfusion hsome
  · intro hnone
    unfold specStrongestHash at hnone
    unfold verify_hash
    cases h512 : link.hashes.lookup .Sha512 with
    | some h => rw [h512] at hnone; exact Option.noConfusion hnone
    | none =>
      rw [h512] at hnone
      cases h256 : link.hashes.lookup .Sha256 with
      | some h => rw [h256] at hnone; exact Option.noConfusion hnone
      | none =>
        rw [h256] at hnone
        cases h1l : link.hashes.lookup .Sha1 with
        | some h => rw [h1l] at hnone; exact Option.noConfusion hnone
        | none =>
          rw [h1l] at hnone
          cases hmd : link.hashes.lookup .Md5 with
          | some h => rw [hmd] at hnone; exact Option.noConfusion hnone
          | none => rfl
  · intro t hok
    unfold download_compressed at hok
    cases hf : env.fetched with
    | error e =>
      simp only [hf] at hok
      split at hok <;> try split at hok
      all_goals exact Except.noConfusion hok
    | ok data =>
      simp only [hf] at hok
      refine ⟨data, rfl, ?_⟩
      cases hv : verify_hash hs data link with
      | error e =>
        simp only [hv] at hok
        split at hok <;> try split at hok
        all_goals exact Except.noConfusion hok
      | ok u => cases u; rfl
  · intro data hf hne
    obtain ⟨e, he⟩ := except_unit_not_ok hne
    refine ⟨e, ?_⟩
    unfold download_compressed
    simp only [hf, he]
    split
    · rfl
    · split <;> rfl

/-- Witness for C8: with SHA256 declared (upper-case) the verification
    succeeds against the lower-case computed digest, and a mismatching
    MD5-only link makes the whole fetch fail. -/
theorem c8_digest_policy_witness :
    verify_hash c8Hashers ([9]) c8Link = .ok () ∧
    (∃ e, download_compressed c8Hashers c8Env c8BadLink = .error e) :=
  ⟨(c8_digest_policy c8Hashers c8Env c8Link ([9])).1.mpr
      ⟨.Sha256, "SHA256HEX", by decide, by decide⟩,
   (c8_digest_policy c8Hashers c8Env c8BadLink ([9])).2.2.2 ([9]) rfl (by decide)⟩

/-! ## Claim C7 -/

set_option maxHeartbeats 4000000 in
/-- Helper: `Architecture::from_str` never returns an error. -/
theorem archFromStr_total (s : String) : ∃ a, Architecture.fromStr s = .ok a := by
  unfold Architecture.fromStr
  repeat' split
  all_goals exact ⟨_, rfl⟩

/-- Helper: the `source` block does not touch `issues`. -/
theorem issues_applySource (kv : List (String × String)) (p : Package) :
    (applySource kv p).issues = p.issues := by
  unfold applySource
  cases kv.lookup ("source") <;> rfl

/-- Helper: the `section` block does not touch `issues`. -/
theorem issues_applySection (kv : List (String × String)) (p : Package) :
    (applySection kv p).issues = p.issues := by
  unfold applySection
  cases kv.lookup ("section") <;> rfl

/-- Helper: the hash blocks do not touch `issues`. -/
theorem issues_applyHash (kv : List (String × String)) (field : String) (h : LinkHash)
    (p : Package) : (applyHash kv field h p).issues = p.issues := by
  unfold applyHash
  cases kv.lookup field <;> rfl

/-- Helper: the `description-md5` block does not touch `issues`. -/
theorem issues_applyDescriptionMd5 (kv : List (String × String)) (p : Package) :
    (applyDescriptionMd5 kv p).issues = p.issues := by
  unfold applyDescriptionMd5
  cases kv.lookup ("description-md5") <;> rfl

/-- Helper: the `homepage` block does not touch `issues`. -/
theorem issues_applyHomepage (kv : List (String × String)) (p : Package) :
    (applyHomepage kv p).issues = p.issues := by
  unfold applyHomepage
  cases kv.lookup ("homepage") <;> rfl

/-- Helper: the `essential` block never fails and does not touch `issues`. -/
theorem issues_applyEssential (kv : List (String × String)) (p : Package) :
    (applyEssential kv p).issues = p.issues := by
  unfold applyEssential
  cases kv.lookup ("essential") <;> rfl

/-- Helper: the `architecture` block, despite its `?`, always succeeds
    (because `Architecture::from_str` is total) and does not touch
    `issues`. -/
theorem applyArchitecture_ok (kv : List (String × String)) (p : Package) :
    ∃ q, applyArchitecture kv p = .ok q ∧ q.issues = p.issues := by
  unfold applyArchitecture
  cases kv.lookup ("architecture") with
  | none => exact ⟨p, rfl, rfl⟩
  | some a =>
    obtain ⟨x, hx⟩ := archFromStr_total a
    simp only [hx]
    exact ⟨_, rfl, rfl⟩

/-- Helper: the `priority` block appends exactly its recoverable issue. -/
theorem issues_applyPriority (kv : List (String × String)) (p : Package) :
    (applyPriority kv p).issues = p.issues ++ priorityIssue kv := by
  unfold applyPriority priorityIssue
  cases kv.lookup ("priority") with
  | none => simp
  | some v => cases h : Priority.fromStr v <;> simp [h]

/-- Helper: the `installed-size` block appends exactly its recoverable
    issue. -/
theorem issues_applyInstalledSize (kv : List (String × String)) (p : Package) :
    (applyInstalledSize kv p).issues = p.issues ++ installedSizeIssue kv := by
  unfold applyInstalledSize installedSizeIssue
  cases kv.lookup ("installed-size") with
  | none => simp
  | some v => cases h : parseUInt 32 v.data <;> simp [h]

/-- Helper: a dependency-class block whose value makes the dependency
    grammar panic propagates the panic. -/
theorem applyDependencyField_panic (kv : List (String × String)) (field : String)
    (setter : Package → List PackageVersion → Package) (p : Package)
    (h : depFieldPanics kv field = true) :
    applyDependencyField kv field setter p = none := by
  unfold applyDependencyField
  unfold depFieldPanics at h
  cases hl : kv.lookup field with
  | none => rw [hl] at h; simp at h
  | some v =>
    rw [hl] at h
    simp only [Option.isNone_iff_eq_none] at h
    simp [h]

/-- Helper: a dependency-class block whose value does not panic and whose
    setter leaves `issues` alone appends exactly its recoverable issue. -/
theorem applyDependencyField_ok (kv : List (String × String)) (field : String)
    (setter : Package → List PackageVersion → Package) (p : Package)
    (hset : ∀ q v, (setter q v).issues = q.issues)
    (h : depFieldPanics kv field = false) :
    ∃ q, applyDependencyField kv field setter p = some q ∧
      q.issues = p.issues ++ depFieldIssue kv field := by
  unfold applyDependencyField depFieldIssue
  unfold depFieldPanics at h
  cases hl : kv.lookup field with
  | none => exact ⟨p, rfl, by simp⟩
  | some v =>
    rw [hl] at h
    simp only [Option.isNone_eq_false_iff, Option.isSome_iff_exists] at h
    obtain ⟨r, hr⟩ := h
    cases r with
    | ok pvs => exact ⟨setter p pvs, by simp [hr], by rw [hset]; simp [hr]⟩
    | error e =>
      exact ⟨{ p with issues := p.issues ++ [e] }, by simp [hr], by simp [hr]⟩

/-- Helper: applying a sequence of dependency-class blocks panics iff one
    of the fields panics, and otherwise appends exactly the fields'
    recoverable issues in order. -/
theorem applyDepFields_spec (kv : List (String × String)) :
    ∀ (L : List (String × (Package → List PackageVersion → Package))),
      (∀ fs ∈ L, ∀ q v, (fs.2 q v).issues = q.issues) →
      ∀ p : Package,
        (depListPanics kv L = true → applyDepFields kv L p = none) ∧
        (depListPanics kv L = false →
          ∃ q, applyDepFields kv L p = some q ∧
            q.issues = p.issues ++ depListIssues kv L) := by
  intro L
  induction L with
  | nil =>
    intro _ p
    constructor
    · intro h
      simp [depListPanics] at h
    · intro _
      exact ⟨p, rfl, by simp [depListIssues]⟩
  | cons fs rest ih =>
    intro hset p
    obtain ⟨field, setter⟩ := fs
    have hsethead : ∀ q v, (setter q v).issues = q.issues :=
      fun q v => hset (field, setter) (List.mem_cons_self _ _) q v
    have hsetrest : ∀ fs ∈ rest, ∀ q v, (fs.2 q v).issues = q.issues :=
      fun fs hfs => hset fs (List.mem_cons_of_mem _ hfs)
    constructor
    · intro hpan
      cases hf : depFieldPanics kv field with
      | true =>
        unfold applyDepFields
        rw [applyDependencyField_panic kv field setter p hf]
      | false =>
        have hrest : depListPanics kv rest = true := by
          have := hpan
          unfold depListPanics at this
          rw [hf] at this
          simpa using this
        obtain ⟨q, hq, _⟩ := applyDependencyField_ok kv field setter p hsethead hf
        unfold applyDepFields
        rw [hq]
        exact (ih hsetrest q).1 hrest
    · intro hpan
      have hpan' : depFieldPanics kv field = false ∧ depListPanics kv rest = false := by
        have := hpan
        unfold depListPanics at this
        exact Bool.or_eq_false_iff.mp this
      obtain ⟨q, hq, hiss⟩ := applyDependencyField_ok kv field setter p hsethead hpan'.1
      obtain ⟨r, hr, hriss⟩ := (ih hsetrest q).2 hpan'.2
      refine ⟨r, ?_, ?_⟩
      · unfold applyDepFields
        rw [hq]
        exact hr
      · rw [hriss, hiss]
        simp [depListIssues, List.append_assoc]

/-- Helper: the setters of `depFieldsList` never touch `issues`. -/
theorem depFieldsList_setters :
    ∀ fs ∈ depFieldsList, ∀ (q : Package) (v : List PackageVersion),
      (fs.2 q v).issues = q.issues := by
  intro fs hfs
  fin_cases hfs <;> exact fun q v => rfl

/-- Helper: the optional-field section panics iff some dependency-class
    field panics; otherwise it succeeds and its result's issues are the
    input's issues extended by exactly the recoverable failures, in parser
    order. -/
theorem applyOptionalFields_spec (kv : List (String × String)) (p : Package) :
    (anyDepFieldPanics kv = true → applyOptionalFields kv p = none) ∧
    (anyDepFieldPanics kv = false →
      ∃ q, applyOptionalFields kv p = some (.ok q) ∧
        q.issues = p.issues ++ stanzaIssues kv) := by
  obtain ⟨q0, hq0, hiss0⟩ := applyArchitecture_ok kv (applySection kv (applySource kv p))
  constructor
  · intro hpan
    unfold applyOptionalFields
    simp only [hq0]
    unfold applyTailFields
    rw [(applyDepFields_spec kv depFieldsList depFieldsList_setters _).1 hpan]
  · intro hpan
    obtain ⟨q, hq, hiss⟩ := (applyDepFields_spec kv depFieldsList depFieldsList_setters
      (applyInstalledSize kv
       (applyEssential kv
        (applyPriority kv
         (applyHomepage kv
          (applyDescriptionMd5 kv
           (applyHash kv ("sha512") .Sha512
            (applyHash kv ("sha256") .Sha256
             (applyHash kv ("sha1") .Sha1
              (applyHash kv ("md5sum") .Md5 q0)))))))))).2 hpan
    refine ⟨q, ?_, ?_⟩
    · unfold applyOptionalFields
      simp only [hq0]
      unfold applyTailFields
      rw [hq]
    · rw [hiss]
      simp only [issues_applyInstalledSize, issues_applyPriority, issues_applyEssential,
        issues_applyHomepage, issues_applyDescriptionMd5, issues_applyHash, hiss0,
        issues_applySection, issues_applySource, stanzaIssues, List.append_assoc]

/-- Helper: the C7 property over an arbitrary key/value map: the parse
    panics iff the required fields are fine and a dependency-class value
    panics; it returns an error iff a required field is missing or
    unparseable; a returned record carries exactly the recoverable
    failures on `issues`. -/
theorem fromStanzaKV_spec (kv : List (String × String)) (stanza : String) (distro : Distro) :
    (Package.fromStanzaKV kv stanza distro = none ↔
      packageStanzaFatal kv = false ∧ anyDepFieldPanics kv = true) ∧
    ((∃ e, Package.fromStanzaKV kv stanza distro = some (.error e)) ↔
      packageStanzaFatal kv = true) ∧
    (∀ pkg, Package.fromStanzaKV kv stanza distro = some (.ok pkg) →
      pkg.issues = stanzaIssues kv) := by
  unfold Package.fromStanzaKV packageStanzaFatal
  cases hpk : kv.lookup ("package") with
  | none => simp [exceptIsError]
  | some name =>
  cases hv : kv.lookup ("version") with
  | none => simp [exceptIsError]
  | some vstr =>
  cases hfv : Version.fromStr vstr with
  | error e => simp [exceptIsError, hfv]
  | ok version =>
  simp only [hfv]
  cases hsz : kv.lookup ("size") with
  | none => simp [exceptIsError, hfv]
  | some sstr =>
  cases hps : parseUInt 64 sstr.data with
  | none => simp [exceptIsError, hfv, hps]
  | some size =>
  cases hfn : kv.lookup ("filename") with
  | none => simp [exceptIsError, hfv, hps]
  | some filenameStr =>
  cases hm : kv.lookup ("maintainer") with
  | none => simp [exceptIsError, hfv, hps]
  | some maintainer =>
  cases hd : kv.lookup ("description") with
  | none => simp [exceptIsError, hfv, hps]
  | some description =>
    simp only [hps]
    have spec := applyOptionalFields_spec kv
      (Package.new name version size (distro.mkUrl filenameStr true) maintainer description)
    cases hpan : anyDepFieldPanics kv with
    | true =>
      rw [spec.1 hpan]
      simp [exceptIsError, hfv, hps, hpan]
    | false =>
      obtain ⟨q, hq, hiss⟩ := spec.2 hpan
      rw [hq]
      refine ⟨by simp [exceptIsError, hfv, hps, hpan], by simp [exceptIsError, hfv, hps], ?_⟩
      intro pkg hok
      injection hok with h1
      injection h1 with h2
      subst h2
      rw [hiss]
      rfl

/-- C7 (amended): `Package::from_stanza` returns a hard error exactly when
    one of the six required fields `package`, `version`, `size`,
    `filename`, `maintainer`, `description` is missing or
    (`version`/`size`) fails to parse; when a record is returned, every
    other field's parse failure (priority, installed-size, the
    dependency-class fields, built-using) is appended to its `issues` in
    parser order — except that a dependency-class value whose first `)`
    precedes its first `(` (or first `]` precedes its first `[`) makes
    `single_form_str` panic on the slice `&desc[start + 1..end]`, so
    `from_stanza` panics (returns nothing at all) exactly when the
    required fields are fine and some dependency-class value has that
    shape. -/
theorem c7_required_fields_and_slice_panic (stanza : String) (distro : Distro) :
    (Package.fromStanza stanza distro = none ↔
      packageStanzaFatal (parse_stanza stanza) = false ∧
      anyDepFieldPanics (parse_stanza stanza) = true) ∧
    ((∃ e, Package.fromStanza stanza distro = some (.error e)) ↔
      packageStanzaFatal (parse_stanza stanza) = true) ∧
    (∀ pkg, Package.fromStanza stanza distro = some (.ok pkg) →
      pkg.issues = stanzaIssues (parse_stanza stanza)) :=
  fromStanzaKV_spec (parse_stanza stanza) stanza distro

set_option maxHeartbeats 4000000 in
/-- Witness for C7 (amended) at a concrete stanza with a malformed
    `Priority`. -/
theorem c7_required_fields_and_slice_panic_witness :
    ∃ pkg, Package.fromStanza c7Stanza testDistro = some (.ok pkg) ∧
      pkg.issues = stanzaIssues (parse_stanza c7Stanza) :=
  ⟨_, rfl, (c7_required_fields_and_slice_panic c7Stanza testDistro).2.2 _ rfl⟩

set_option maxHeartbeats 4000000 in
/-- C7 (counterexample): on a stanza whose six required fields are present
    and valid but whose `Depends` value has its first `)` before its first
    `(`, `Package::from_stanza` panics on the dependency slice
    (package_version.rs, `&desc[start + 1..end]` with `start + 1 > end`):
    the parse failure is neither appended to a returned record's `issues`
    nor returned as an error, refuting the claimed dichotomy. -/
theorem c7_depends_slice_panic :
    PackageVersion.singleFormStr ("x ) (") = none ∧
    Package.fromStanza c7CexStanza testDistro = none := by
  refine ⟨by decide, by decide⟩

/-! ## Claim C4 -/

/-- Helper: `Ord for Version` on equal arguments short-circuits to
    `Equal`. -/
theorem version_cmp_self (v : Version) : Version.cmp v v = some .eq := by
  simp [Version.cmp]

/-- Helper: the package order is reflexive (never panics on `cmp(a, a)`). -/
theorem pkg_cmpOpt_self (p : Package) : Package.cmpOpt p p = some .eq :=
  version_cmp_self p.version

/-- Helper: ordered insertion succeeds when the comparisons it runs are
    defined. -/
theorem orderedInsertOpt_some {α : Type} (cmp : α → α → Option Ordering) (a : α) :
    ∀ l : List α, (∀ b ∈ l, cmp a b ≠ none) →
      ∃ l', orderedInsertOpt cmp a l = some l' := by
  intro l
  induction l with
  | nil => exact fun _ => ⟨[a], rfl⟩
  | cons b l ih =>
    intro h
    cases hc : cmp a b with
    | none => exact absurd hc (h b (List.mem_cons_self b l))
    | some o =>
      cases o with
      | gt =>
        obtain ⟨l', hl'⟩ := ih (fun x hx => h x (List.mem_cons_of_mem _ hx))
        exact ⟨b :: l', by simp [orderedInsertOpt, hc, hl']⟩
      | lt => exact ⟨a :: b :: l, by simp [orderedInsertOpt, hc]⟩
      | eq => exact ⟨a :: b :: l, by simp [orderedInsertOpt, hc]⟩

/-- Helper: a successful ordered insertion is a permutation of consing. -/
theorem orderedInsertOpt_perm {α : Type} (cmp : α → α → Option Ordering) (a : α) :
    ∀ (l l' : List α), orderedInsertOpt cmp a l = some l' → List.Perm l' (a :: l) := by
  intro l
  induction l with
  | nil =>
    intro l' h
    injection h with h1
    subst h1
    exact List.Perm.refl _
  | cons b l ih =>
    intro l' h
    cases hc : cmp a b with
    | none => rw [orderedInsertOpt, hc] at h; exact Option.noConfusion h
    | some o =>
      cases o with
      | gt =>
        rw [orderedInsertOpt, hc] at h
        cases hrec : orderedInsertOpt cmp a l with
        | none => rw [hrec] at h; exact Option.noConfusion h
        | some l'' =>
          rw [hrec] at h
          injection h with h1
          subst h1
          exact (List.Perm.cons b (ih l'' hrec)).trans (List.Perm.swap a b l)
      | lt =>
        rw [orderedInsertOpt, hc] at h
        injection h with h1
        subst h1
        exact List.Perm.refl _
      | eq =>
        rw [orderedInsertOpt, hc] at h
        injection h with h1
        subst h1
        exact List.Perm.refl _

/-- Helper: ordered insertion preserves sortedness when the comparator is
    total and transitive on an ambient element set `S`. -/
theorem orderedInsertOpt_pairwise {α : Type} (cmp : α → α → Option Ordering) (S : List α)
    (htot : ∀ x ∈ S, ∀ y ∈ S, cmp x y = some .gt → cmp y x ≠ some .gt)
    (htrans : ∀ x ∈ S, ∀ y ∈ S, ∀ z ∈ S, cmpLe cmp x y → cmpLe cmp y z → cmpLe cmp x z)
    (a : α) (ha : a ∈ S) :
    ∀ (l l' : List α), (∀ x ∈ l, x ∈ S) → List.Pairwise (cmpLe cmp) l →
      orderedInsertOpt cmp a l = some l' → List.Pairwise (cmpLe cmp) l' := by
  intro l
  induction l with
  | nil =>
    intro l' _ _ h
    injection h with h1
    subst h1
    exact List.pairwise_singleton _ a
  | cons b l ih =>
    intro l' hsub hpair h
    have hbS : b ∈ S := hsub b (List.mem_cons_self b l)
    have hlS : ∀ x ∈ l, x ∈ S := fun x hx => hsub x (List.mem_cons_of_mem _ hx)
    obtain ⟨hb, hpl⟩ := List.pairwise_cons.mp hpair
    cases hc : cmp a b with
    | none => rw [orderedInsertOpt, hc] at h; exact Option.noConfusion h
    | some o =>
      cases o with
      | gt =>
        rw [orderedInsertOpt, hc] at h
        cases hrec : orderedInsertOpt cmp a l with
        | none => rw [hrec] at h; exact Option.noConfusion h
        | some l'' =>
          rw [hrec] at h
          injection h with h1
          subst h1
          refine List.pairwise_cons.mpr ⟨?_, ih l'' hlS hpl hrec⟩
          intro x hx
          rcases List.mem_cons.mp ((orderedInsertOpt_perm cmp a l l'' hrec).mem_iff.mp hx) with
            hxa | hxl
          · rw [hxa]
            exact htot a ha b hbS hc
          · exact hb x hxl
      | lt =>
        rw [orderedInsertOpt, hc] at h
        injection h with h1
        subst h1
        have hab : cmpLe cmp a b := by rw [cmpLe, hc]; simp
        refine List.pairwise_cons.mpr ⟨?_, hpair⟩
        intro x hx
        rcases List.mem_cons.mp hx with hxb | hxl
        · subst hxb; exact hab
        · exact htrans a ha b hbS x (hlS x hxl) hab (hb x hxl)
      | eq =>
        rw [orderedInsertOpt, hc] at h
        injection h with h1
        subst h1
        have hab : cmpLe cmp a b := by rw [cmpLe, hc]; simp
        refine List.pairwise_cons.mpr ⟨?_, hpair⟩
        intro x hx
        rcases List.mem_cons.mp hx with hxb | hxl
        · subst hxb; exact hab
        · exact htrans a ha b hbS x (hlS x hxl) hab (hb x hxl)

/-- Helper: the modelled `Vec::sort` succeeds on lawful inputs and returns
    a sorted permutation. -/
theorem sortOpt_spec {α : Type} (cmp : α → α → Option Ordering) (S : List α)
    (hdef : ∀ x ∈ S, ∀ y ∈ S, cmp x y ≠ none)
    (htot : ∀ x ∈ S, ∀ y ∈ S, cmp x y = some .gt → cmp y x ≠ some .gt)
    (htrans : ∀ x ∈ S, ∀ y ∈ S, ∀ z ∈ S, cmpLe cmp x y → cmpLe cmp y z → cmpLe cmp x z) :
    ∀ l : List α, (∀ x ∈ l, x ∈ S) →
      ∃ l', sortOpt cmp l = some l' ∧ List.Perm l' l ∧ List.Pairwise (cmpLe cmp) l' := by
  intro l
  induction l with
  | nil => exact fun _ => ⟨[], rfl, List.Perm.refl _, List.Pairwise.nil⟩
  | cons a l ih =>
    intro hsub
    have haS : a ∈ S := hsub a (List.mem_cons_self a l)
    have hlS : ∀ x ∈ l, x ∈ S := fun x hx => hsub x (List.mem_cons_of_mem _ hx)
    obtain ⟨m, hm, hperm, hpair⟩ := ih hlS
    have hmS : ∀ x ∈ m, x ∈ S := fun x hx => hlS x (hperm.mem_iff.mp hx)
    obtain ⟨l', hl'⟩ :=
      orderedInsertOpt_some cmp a m (fun b hb => hdef a haS b (hmS b hb))
    refine ⟨l', by simp [sortOpt, hm, hl'], ?_, ?_⟩
    · exact (orderedInsertOpt_perm cmp a m l' hl').trans (List.Perm.cons a hperm)
    · exact orderedInsertOpt_pairwise cmp S htot htrans a haS m l' hmS hpair hl'

/-- Helper: a non-empty list has a last element. -/
theorem getLastq_some {α : Type} : ∀ (a : α) (l : List α), ∃ p, (a :: l).getLast? = some p := by
  intro a l
  induction l generalizing a with
  | nil => exact ⟨a, rfl⟩
  | cons b m ih =>
    obtain ⟨p, hp⟩ := ih b
    exact ⟨p, by simpa using hp⟩

/-- Helper: in a `≤`-sorted list the last element is a member and an upper
    bound (using reflexivity on the elements for the last element
    itself). -/
theorem pairwise_getLastq_le {α : Type} (cmp : α → α → Option Ordering) :
    ∀ (l : List α), List.Pairwise (cmpLe cmp) l → (∀ x ∈ l, cmpLe cmp x x) →
      ∀ p, l.getLast? = some p → p ∈ l ∧ ∀ x ∈ l, cmpLe cmp x p := by
  intro l
  induction l with
  | nil => intro _ _ p hp; exact Option.noConfusion hp
  | cons a l ih =>
    intro hpair hrefl p hp
    obtain ⟨ha, hpl⟩ := List.pairwise_cons.mp hpair
    cases l with
    | nil =>
      have hpa : a = p := by simpa using hp
      subst hpa
      refine ⟨List.mem_singleton_self a, ?_⟩
      intro x hx
      have hxa : x = a := List.mem_singleton.mp hx
      subst hxa
      exact hrefl x (List.mem_singleton_self x)
    | cons b m =>
      have hp' : (b :: m).getLast? = some p := by simpa using hp
      obtain ⟨hmem, hub⟩ :=
        ih hpl (fun y hy => hrefl y (List.mem_cons_of_mem _ hy)) p hp'
      refine ⟨List.mem_cons_of_mem _ hmem, ?_⟩
      intro x hx
      rcases List.mem_cons.mp hx with hxa | hxl
      · subst hxa
        exact ha p hmem
      · exact hub x hxl

/-- Helper: under definedness the monadic relation filter is the plain
    filter by `matches = some true`. -/
theorem filterMatchesOpt_eq_filter {α : Type} (ver : α → Version) (rel : PackageVersion) :
    ∀ l : List α, (∀ p ∈ l, rel.matches (ver p) ≠ none) →
      filterMatchesOpt ver rel l =
        some (l.filter (fun p => rel.matches (ver p) == some true)) := by
  intro l
  induction l with
  | nil => exact fun _ => rfl
  | cons p ps ih =>
    intro h
    have hps : ∀ q ∈ ps, rel.matches (ver q) ≠ none :=
      fun q hq => h q (List.mem_cons_of_mem _ hq)
    cases hm : rel.matches (ver p) with
    | none => exact absurd hm (h p (List.mem_cons_self p ps))
    | some b =>
      cases b with
      | true => simp [filterMatchesOpt, hm, ih hps, List.filter_cons]
      | false => simp [filterMatchesOpt, hm, ih hps, List.filter_cons]

/-- C4 (amended): provided the version comparator behaves as a total
    preorder on the packages stored under the queried name (it is defined —
    no panic — antisymmetric and transitive there), and — for a
    relation-carrying query — `matches` is defined on the stored versions:
    `get(name, None)` returns a package of maximal version among those
    stored under the name, `get(name, Some(rel))` returns a package of
    maximal version among the stored packages matching the relation, and
    `get` returns `None` exactly when the name is absent or no stored
    package matches. The unamended claim fails because the comparator can
    panic on parseable stored versions (see the counterexample). -/
theorem c4_get_returns_maximum (idx : PackageIndex) (name : String) :
    (idx.package_map.lookup name = none → ∀ v, idx.get name v = some none) ∧
    (∀ l, idx.package_map.lookup name = some l → LawfulCmpOn Package.cmpOpt l →
      (l ≠ [] → ∃ p, idx.get name none = some (some p) ∧ IsMaxOf Package.cmpOpt p l) ∧
      (∀ rel, MatchesDefinedOn Package.version rel l →
        (matchedPackages name rel l = [] → idx.get name (some rel) = some none) ∧
        (matchedPackages name rel l ≠ [] →
          ∃ p, idx.get name (some rel) = some (some p) ∧
            IsMaxOf Package.cmpOpt p (matchedPackages name rel l)))) := by
  constructor
  · intro habs v
    unfold PackageIndex.get
    rw [habs]
  · intro l hlook hlaw
    obtain ⟨hdef, htot, htrans⟩ := hlaw
    constructor
    · intro hne
      obtain ⟨l', hsort, hperm, hpair⟩ :=
        sortOpt_spec Package.cmpOpt l hdef htot htrans l (fun x hx => hx)
      have hne' : l' ≠ [] := by
        intro h0
        subst h0
        exact hne hperm.symm.eq_nil
      obtain ⟨p, hp⟩ : ∃ p, l'.getLast? = some p := by
        cases l' with
        | nil => exact absurd rfl hne'
        | cons a m => exact getLastq_some a m
      obtain ⟨hmem, hub⟩ := pairwise_getLastq_le Package.cmpOpt l' hpair
        (fun x _ => by simp [cmpLe, pkg_cmpOpt_self]) p hp
      refine ⟨p, ?_, hperm.mem_iff.mp hmem, ?_⟩
      · unfold PackageIndex.get
        rw [hlook]
        simp [getFromList, hsort, hp]
      · intro q hq
        exact hub q (hperm.mem_iff.mpr hq)
    · intro rel hmd
      have hmd' : ∀ p ∈ l.filter (fun p => name = p.package),
          rel.matches (Package.version p) ≠ none :=
        fun p hp => hmd p (List.mem_of_mem_filter hp)
      have hfilter := filterMatchesOpt_eq_filter Package.version rel
        (l.filter (fun p => name = p.package)) hmd'
      have hmatched : (l.filter (fun p => name = p.package)).filter
          (fun p => rel.matches (Package.version p) == some true) =
          matchedPackages name rel l := rfl
      rw [hmatched] at hfilter
      constructor
      · intro hempty
        unfold PackageIndex.get
        rw [hlook]
        simp [getFromList, hfilter, hempty, sortOpt]
      · intro hne
        have hsubm : ∀ x ∈ matchedPackages name rel l, x ∈ l := by
          intro x hx
          exact List.mem_of_mem_filter (List.mem_of_mem_filter hx)
        obtain ⟨l', hsort, hperm, hpair⟩ :=
          sortOpt_spec Package.cmpOpt l hdef htot htrans (matchedPackages name rel l) hsubm
        have hne' : l' ≠ [] := by
          intro h0
          subst h0
          exact hne hperm.symm.eq_nil
        obtain ⟨p, hp⟩ : ∃ p, l'.getLast? = some p := by
          cases l' with
          | nil => exact absurd rfl hne'
          | cons a m => exact getLastq_some a m
        obtain ⟨hmem, hub⟩ := pairwise_getLastq_le Package.cmpOpt l' hpair
          (fun x _ => by simp [cmpLe, pkg_cmpOpt_self]) p hp
        refine ⟨p, ?_, hperm.mem_iff.mp hmem, ?_⟩
        · unfold PackageIndex.get
          rw [hlook]
          simp [getFromList, hfilter, hsort, hp]
        · intro q hq
          exact hub q (hperm.mem_iff.mpr hq)

set_option maxHeartbeats 4000000 in
/-- Witness for C4 (amended) on a lawful two-package index, for both the
    version-less and the relation-carrying query. -/
theorem c4_get_returns_maximum_witness :
    (∃ p, c4WitnessIndex.get "p" none = some (some p) ∧
      IsMaxOf Package.cmpOpt p c4WitnessPackages) ∧
    (∃ p, c4WitnessIndex.get "p" (some ⟨"p", none, some ⟨none, "1.5", none⟩, some .Larger⟩) =
        some (some p) ∧
      IsMaxOf Package.cmpOpt p
        (matchedPackages "p" ⟨"p", none, some ⟨none, "1.5", none⟩, some .Larger⟩ c4WitnessPackages)) :=
  ⟨((c4_get_returns_maximum c4WitnessIndex "p").2 c4WitnessPackages rfl
      ⟨by decide, by decide, by decide⟩).1 (by decide),
   (((c4_get_returns_maximum c4WitnessIndex "p").2 c4WitnessPackages rfl
      ⟨by decide, by decide, by decide⟩).2
      ⟨"p", none, some ⟨none, "1.5", none⟩, some .Larger⟩ (by decide)).2 (by decide)⟩

set_option maxHeartbeats 4000000 in
/-- C4 (counterexample): on an index storing the parseable versions `1.0`
    and `0:1.0` under one name, `get(name, None)` panics inside the sort
    (the epoch comparison hits the `This should not happen` assertion)
    instead of returning the maximum. -/
theorem c4_get_panics_on_cex_index : c4CexIndex.get "p" none = none := by decide

end Libapt
